import Mathlib

/-!
# git-tasks: a shallow embedding of the branch-per-task workflow manager

The repository ships two executables, `bin/git-tasks` and
`hooks/prepare-commit-msg`, exercised by the unit tests in
`src/tests/test_git_tasks.py` and `src/tests/test_prepare_commit_msg.py`.
The executables themselves are not present under `src/`, so the embedding
below models them from the specification, keeping the exact output bytes
that the repository's own tests assert.

Pure fragments become Lean functions; the git repository becomes an
explicit `RepoState`; the external git ancestry query and the external
task-manager adapter become function parameters.
-/

namespace GitTasks

/-- Modelled from the spec: a configured task-tracking System (spec §3,
§6; `bin/git-tasks` is missing from `src/`).  A pattern is modelled as a
Boolean test on task-identifier strings. -/
structure System where
  name : String
  type : String
  command : String
  patterns : List (String → Bool)
  message_format : Option String

/-- Modelled from the spec: the Task record an adapter produces (spec §3);
`title` and `status` are legitimately absent. -/
structure Task where
  id : String
  title : Option String
  status : Option String

/-- A System matches a task identifier when any one of its patterns
matches (spec §4.1). -/
def systemMatches (s : System) (task_id : String) : Bool :=
  s.patterns.any (fun p => p task_id)

/-- Modelled from the spec: the Config Resolver (spec §4.1) — first System
in document order with any matching pattern; `none` models
`UnresolvedTask`. -/
def resolve (systems : List System) (task_id : String) : Option System :=
  systems.find? (fun s => systemMatches s task_id)

/-- The observable state of the underlying version-control store: its
branch list and the current branch (spec §4.3 Branch Store). -/
structure RepoState where
  branches : List String
  current : String

/-- Modelled from the spec: `start(task_id)` of the Task Branch Manager
(spec §4.4) — switch to an existing branch, otherwise create and switch;
returns the new state and the reported message. -/
def start (st : RepoState) (task_id : String) : RepoState × String :=
  if st.branches.contains task_id then
    ({ st with current := task_id }, "Switching to existing task")
  else
    ({ branches := task_id :: st.branches, current := task_id },
     "Creating new task")

/-- A branch is a task branch when some configured System's pattern
matches its name (spec §4.4 `list`). -/
def isTaskBranch (cfg : List System) (b : String) : Bool :=
  (resolve cfg b).isSome

/-- Lexicographic (code-point) comparison of character lists, the order
used by the sorted branch listing. -/
def lexLe : List Char → List Char → Bool
  | [], _ => true
  | _ :: _, [] => false
  | a :: as, b :: bs =>
    if a.toNat < b.toNat then true
    else if b.toNat < a.toNat then false
    else lexLe as bs

/-- Lexicographic comparison of strings. -/
def strLe (a b : String) : Bool := lexLe a.data b.data

/-- Lexicographic sort of branch names, for deterministic output
(spec §4.4 `list`). -/
def sortStrings (l : List String) : List String :=
  l.insertionSort (fun a b => strLe a b = true)

/-- The task branches of the repository, lexicographically sorted
(spec §4.4). -/
def taskBranches (cfg : List System) (st : RepoState) : List String :=
  sortStrings (st.branches.filter (fun b => isTaskBranch cfg b))

/-- Modelled from the spec: the output of `list()` (spec §4.4) — one task
branch per line, sorted. -/
def list_output (cfg : List System) (st : RepoState) : String :=
  String.join ((taskBranches cfg st).map (fun b => b ++ "\n"))

/-- Fetching a Task for a branch through the adapter; on adapter failure
(`none`) degrade to a Task with empty fields (spec §4.2, §7). -/
def fetchTask (adapter : String → Option Task) (b : String) : Task :=
  match adapter b with
  | some t => t
  | none => { id := b, title := none, status := none }

/-- The default rendering of one `status` line for a Task: absent fields
render as the empty string, never a placeholder (spec §4.2). -/
def renderStatusLine (b : String) (t : Task) : String :=
  b ++ " (" ++ t.status.getD "" ++ "): " ++ t.title.getD ""

/-- Modelled from the spec: the output of `status()` (spec §4.4) — one
line per task branch, or "No tasks started" when there are none; the
exact line bytes are pinned by `test_git_tasks.py` (test_status). -/
def status_output (cfg : List System) (adapter : String → Option Task)
    (st : RepoState) : String :=
  match taskBranches cfg st with
  | [] => "No tasks started\n"
  | bs => String.join (bs.map (fun b =>
      renderStatusLine b (fetchTask adapter b) ++ "\n"))

/-- The branches `clean` selects: every task branch other than the current
branch that is an ancestor of (fully merged into) the upstream branch
(spec §4.4 `clean`). -/
def cleanSelection (cfg : List System) (st : RepoState)
    (is_ancestor : String → String → Bool) (upstream : String) :
    List String :=
  (taskBranches cfg st).filter
    (fun b => (b != st.current) && is_ancestor b upstream)

/-- Result of a `clean` run: the repository state afterwards, the branch
names printed, and the branches actually deleted. -/
structure CleanResult where
  state : RepoState
  printed : List String
  deleted : List String

/-- Modelled from the spec: `clean([dry_run])` of the Task Branch Manager
(spec §4.4) — in dry-run mode print the selection and delete nothing,
otherwise delete each selected branch and print its name. -/
def clean (cfg : List System) (st : RepoState)
    (is_ancestor : String → String → Bool) (upstream : String)
    (dry_run : Bool) : CleanResult :=
  let sel := cleanSelection cfg st is_ancestor upstream
  if dry_run then
    { state := st, printed := sel, deleted := [] }
  else
    { state := { st with
        branches := st.branches.filter (fun b => !(sel.contains b)) },
      printed := sel, deleted := sel }

/-- Modelled from the spec: the Commit Message Hook's rendered metadata
line (spec §4.2, §4.5).  On adapter failure the line degrades to the bare
task identifier with all fetched fields empty; with a `message_format`,
the "generic" style renders `<format> #<id> <title>`; otherwise the
default status rendering is used.  The exact bytes are pinned by
`test_prepare_commit_msg.py` (test_prepare_message). -/
def annLine (sys : System) (branch : String) (fetched : Option Task) :
    String :=
  match fetched with
  | none => branch
  | some task =>
    match sys.message_format with
    | some fmt => fmt ++ " #" ++ task.id ++ " " ++ task.title.getD ""
    | none => renderStatusLine branch task

/-- Splitting a character list into its lines ("\n"-separated chunks). -/
def splitLinesAux : List Char → List (List Char)
  | [] => [[]]
  | c :: cs =>
    if c = '\n' then [] :: splitLinesAux cs
    else
      match splitLinesAux cs with
      | l :: ls => (c :: l) :: ls
      | [] => [[c]]

/-- Whether the message buffer already contains `line` as one of its
lines (the hook's idempotence check, spec §4.5 step 4). -/
def containsLine (buf line : String) : Bool :=
  decide (line.data ∈ splitLinesAux buf.data)

/-- The metadata line the hook would use for the current branch: empty
when the branch resolves to no System, otherwise the rendered line for
the fetched (possibly failed) Task. -/
def hookLine (cfg : List System) (adapter : String → Option Task)
    (branch : String) : String :=
  match resolve cfg branch with
  | none => ""
  | some sys => annLine sys branch (adapter branch)

/-- Modelled from the spec: the Commit Message Hook (spec §4.5), as a
function from the current branch and message buffer to the final buffer
and the process exit code.  Unresolved branch: buffer untouched, exit 0.
Line already present: no change.  Otherwise the metadata paragraph is
inserted in front of the buffer; the inserted bytes
`"\n\n" ++ line ++ "\n\n"` are pinned by `test_prepare_commit_msg.py`
(lines 108-110 and 126-128). -/
def prepareCommitMsg (cfg : List System) (adapter : String → Option Task)
    (branch : String) (buffer : String) : String × Nat :=
  match resolve cfg branch with
  | none => (buffer, 0)
  | some sys =>
    let line := annLine sys branch (adapter branch)
    if containsLine buffer line then (buffer, 0)
    else ("\n\n" ++ line ++ "\n\n" ++ buffer, 0)

/-- The spec's literal wording for the inserted paragraph (spec §4.5
step 5): "a blank line, the annotation line, a blank line" immediately
before the first line of existing content.  Stated from the spec's words,
for comparison with `prepareCommitMsg`. -/
def specParagraphInsert (line content : String) : String :=
  "\n" ++ line ++ "\n" ++ "\n" ++ content

/-- A prefix-matching pattern, used for the concrete configurations in
the theorems below. -/
def prefixPat (p : String) : String → Bool :=
  fun s => p.data.isPrefixOf s.data

/-- Concrete fixture: a System recognizing `issue-` branches, as in
`tests/test_git_tasks.py` (test_create, test_clean). -/
def issueSystem : System :=
  { name := "Issues", type := "generic", command := "fake-task-manager",
    patterns := [prefixPat "issue-"], message_format := none }

/-- Concrete fixture: a configuration with only `issueSystem`. -/
def issueCfg : List System := [issueSystem]

/-- Concrete fixture: the "Generic" System of
`tests/test_prepare_commit_msg.py`, with the "generic" message format. -/
def genSystem : System :=
  { name := "Generic", type := "generic", command := "fake-task-manager",
    patterns := [prefixPat "generic-"], message_format := some "generic" }

/-- Concrete fixture: a configuration with only `genSystem`. -/
def genCfg : List System := [genSystem]

/-- Concrete fixture: the "Generic" System of `tests/test_git_tasks.py`
(test_status), which has no message format. -/
def statusSystem : System :=
  { name := "Generic", type := "generic", command := "fake-task-manager",
    patterns := [prefixPat "generic-"], message_format := none }

/-- Concrete fixture: a configuration with only `statusSystem`. -/
def statusCfg : List System := [statusSystem]

/-! ## Helper lemmas -/

theorem lexLe_total : ∀ as bs : List Char,
    lexLe as bs = true ∨ lexLe bs as = true := by
  intro as
  induction as with
  | nil => intro bs; left; rfl
  | cons a as ih =>
    intro bs
    cases bs with
    | nil => right; rfl
    | cons b bs =>
      simp only [lexLe]
      rcases Nat.lt_trichotomy a.toNat b.toNat with h | h | h
      · left; simp [h]
      · have h1 : ¬ a.toNat < b.toNat := by omega
        have h2 : ¬ b.toNat < a.toNat := by omega
        simp [h1, h2]
        exact ih bs
      · right; simp [h]

theorem lexLe_trans : ∀ as bs cs : List Char,
    lexLe as bs = true → lexLe bs cs = true → lexLe as cs = true := by
  intro as
  induction as with
  | nil => intro bs cs _ _; rfl
  | cons a as ih =>
    intro bs cs hab hbc
    cases bs with
    | nil => simp [lexLe] at hab
    | cons b bs =>
      cases cs with
      | nil => simp [lexLe] at hbc
      | cons c cs =>
        simp only [lexLe] at hab hbc ⊢
        by_cases h1 : a.toNat < b.toNat
        · by_cases h2 : b.toNat < c.toNat
          · have h : a.toNat < c.toNat := Nat.lt_trans h1 h2
            simp [h]
          · by_cases h3 : c.toNat < b.toNat
            · simp [h2, h3] at hbc
            · have h : a.toNat < c.toNat := by omega
              simp [h]
        · by_cases h4 : b.toNat < a.toNat
          · simp [h1, h4] at hab
          · simp [h1, h4] at hab
            by_cases h2 : b.toNat < c.toNat
            · have h : a.toNat < c.toNat := by omega
              simp [h]
            · by_cases h3 : c.toNat < b.toNat
              · simp [h2, h3] at hbc
              · simp [h2, h3] at hbc
                have n1 : ¬ a.toNat < c.toNat := by omega
                have n2 : ¬ c.toNat < a.toNat := by omega
                simp [n1, n2]
                exact ih bs cs hab hbc

instance strLeTotal : IsTotal String (fun a b => strLe a b = true) :=
  ⟨fun a b => lexLe_total a.data b.data⟩

instance strLeTrans : IsTrans String (fun a b => strLe a b = true) :=
  ⟨fun a b c => lexLe_trans a.data b.data c.data⟩

theorem mem_taskBranches (cfg : List System) (st : RepoState) (b : String) :
    b ∈ taskBranches cfg st ↔
      b ∈ st.branches ∧ isTaskBranch cfg b = true := by
  unfold taskBranches sortStrings
  rw [(List.perm_insertionSort _ _).mem_iff]
  simp [List.mem_filter]

theorem mem_cleanSelection (cfg : List System) (st : RepoState)
    (anc : String → String → Bool) (up : String) (b : String) :
    b ∈ cleanSelection cfg st anc up ↔
      b ∈ st.branches ∧ isTaskBranch cfg b = true ∧
        b ≠ st.current ∧ anc b up = true := by
  unfold cleanSelection
  rw [List.mem_filter, mem_taskBranches]
  simp only [Bool.and_eq_true, bne_iff_ne, ne_eq]
  tauto

theorem splitLinesAux_cons_newline (cs : List Char) :
    splitLinesAux ('\n' :: cs) = [] :: splitLinesAux cs := by
  simp [splitLinesAux]

theorem splitLinesAux_append (a : List Char) (ha : '\n' ∉ a)
    (cs : List Char) :
    splitLinesAux (a ++ '\n' :: cs) = a :: splitLinesAux cs := by
  induction a with
  | nil => simp [splitLinesAux]
  | cons x a ih =>
    have hx : x ≠ '\n' := by
      intro h; exact ha (h ▸ List.mem_cons_self x a)
    have ha' : '\n' ∉ a := fun h => ha (List.mem_cons_of_mem x h)
    simp only [List.cons_append, splitLinesAux, if_neg hx]
    rw [List.append_eq, ih ha']

theorem containsLine_insert (ann buf : String) (h : '\n' ∉ ann.data) :
    containsLine ("\n\n" ++ ann ++ "\n\n" ++ buf) ann = true := by
  have hdata : ("\n\n" ++ ann ++ "\n\n" ++ buf).data =
      '\n' :: '\n' :: (ann.data ++ '\n' :: '\n' :: buf.data) := by
    simp [String.data_append]
  rw [containsLine, hdata]
  rw [splitLinesAux_cons_newline, splitLinesAux_cons_newline]
  rw [splitLinesAux_append ann.data h]
  simp

theorem find?_first {α : Type} (f : α → Bool) :
    ∀ (pre : List α) (s : α) (post : List α),
      (∀ x ∈ pre, f x = false) → f s = true →
      List.find? f (pre ++ s :: post) = some s := by
  intro pre
  induction pre with
  | nil => intro s post _ hs; simp [List.find?_cons, hs]
  | cons q pre ih =>
    intro s post hpre hs
    have hq := hpre q (List.mem_cons_self q pre)
    rw [List.cons_append]
    simp only [List.find?_cons, hq]
    exact ih s post (fun x hx => hpre x (List.mem_cons_of_mem q hx)) hs

/-! ## Claim theorems -/

/-- Claim C1: for every branch b, a run of clean deletes b if and only if
is_ancestor(b, upstream) is true, b is not the current branch and b is a
task branch; a clean run with dry-run computes the same selection, prints
the selected names, and performs zero deletions. -/
theorem clean_deletes_iff (cfg : List System) (st : RepoState)
    (anc : String → String → Bool) (up : String) (b : String)
    (hb : b ∈ st.branches) :
    (b ∈ (clean cfg st anc up false).deleted ↔
      anc b up = true ∧ b ≠ st.current ∧ isTaskBranch cfg b = true)
    ∧ (clean cfg st anc up true).printed =
        (clean cfg st anc up false).deleted
    ∧ (clean cfg st anc up true).deleted = []
    ∧ (clean cfg st anc up true).state = st := by
  refine ⟨?_, rfl, rfl, rfl⟩
  have hdel : (clean cfg st anc up false).deleted =
      cleanSelection cfg st anc up := rfl
  rw [hdel, mem_cleanSelection]
  constructor
  · rintro ⟨_, ht, hne, hanc⟩; exact ⟨hanc, hne, ht⟩
  · rintro ⟨hanc, hne, ht⟩; exact ⟨hb, ht, hne, hanc⟩

/-- Concrete repository for the clean witnesses: the branch layout of
test_clean after the upstream moved to issue-2's commit. -/
def cleanRepo : RepoState :=
  { branches := ["issue-1", "issue-2", "master", "origin/master"],
    current := "origin/master" }

/-- Concrete ancestry for the clean witnesses: only issue-2 is fully
merged into the upstream. -/
def cleanAnc : String → String → Bool := fun b _ => b == "issue-2"

theorem clean_deletes_iff_witness :
    "issue-2" ∈ cleanRepo.branches
    ∧ (("issue-2" ∈
          (clean issueCfg cleanRepo cleanAnc "origin/master" false).deleted ↔
        cleanAnc "issue-2" "origin/master" = true ∧
          "issue-2" ≠ cleanRepo.current ∧
          isTaskBranch issueCfg "issue-2" = true)
      ∧ (clean issueCfg cleanRepo cleanAnc "origin/master" true).printed =
          (clean issueCfg cleanRepo cleanAnc "origin/master" false).deleted
      ∧ (clean issueCfg cleanRepo cleanAnc "origin/master" true).deleted = []
      ∧ (clean issueCfg cleanRepo cleanAnc "origin/master" true).state =
          cleanRepo) :=
  ⟨by decide,
   clean_deletes_iff issueCfg cleanRepo cleanAnc "origin/master" "issue-2"
     (by decide)⟩

/-- Claim C3: the current branch is never among the branches deleted by
clean, regardless of ancestry; it is not even in the selection clean
attempts to delete, and it stays in the branch set. -/
theorem clean_never_deletes_current (cfg : List System) (st : RepoState)
    (anc : String → String → Bool) (up : String) (dry : Bool) :
    st.current ∉ cleanSelection cfg st anc up
    ∧ st.current ∉ (clean cfg st anc up dry).deleted
    ∧ (st.current ∈ st.branches →
        st.current ∈ (clean cfg st anc up dry).state.branches) := by
  have hsel : st.current ∉ cleanSelection cfg st anc up := by
    rw [mem_cleanSelection]
    rintro ⟨_, _, hne, _⟩
    exact hne rfl
  refine ⟨hsel, ?_, ?_⟩
  · cases dry with
    | true => simp [clean]
    | false => exact hsel
  · intro hc
    cases dry with
    | true => simpa [clean] using hc
    | false =>
      have hgoal : (clean cfg st anc up false).state.branches =
          st.branches.filter
            (fun b => !((cleanSelection cfg st anc up).contains b)) := rfl
      rw [hgoal, List.mem_filter]
      refine ⟨hc, ?_⟩
      simpa using hsel

theorem clean_never_deletes_current_witness :
    cleanRepo.current ∈ cleanRepo.branches
    ∧ (cleanRepo.current ∉
        cleanSelection issueCfg cleanRepo cleanAnc "origin/master"
      ∧ cleanRepo.current ∉
          (clean issueCfg cleanRepo cleanAnc "origin/master" false).deleted
      ∧ (cleanRepo.current ∈ cleanRepo.branches →
          cleanRepo.current ∈
            (clean issueCfg cleanRepo cleanAnc
              "origin/master" false).state.branches)) :=
  ⟨by decide,
   clean_never_deletes_current issueCfg cleanRepo cleanAnc
     "origin/master" false⟩

/-- Claim C10: every branch whose name matches no configured
task-identifier pattern survives every run of clean, with or without
dry-run, even when fully merged into the upstream. -/
theorem clean_preserves_non_task (cfg : List System) (st : RepoState)
    (anc : String → String → Bool) (up : String) (dry : Bool) (b : String)
    (hb : b ∈ st.branches) (hnt : isTaskBranch cfg b = false) :
    b ∈ (clean cfg st anc up dry).state.branches := by
  have hsel : b ∉ cleanSelection cfg st anc up := by
    rw [mem_cleanSelection]
    rintro ⟨_, ht, _, _⟩
    rw [hnt] at ht
    exact Bool.false_ne_true ht
  cases dry with
  | true => simpa [clean] using hb
  | false =>
    have hgoal : (clean cfg st anc up false).state.branches =
        st.branches.filter
          (fun x => !((cleanSelection cfg st anc up).contains x)) := rfl
    rw [hgoal, List.mem_filter]
    refine ⟨hb, ?_⟩
    simpa using hsel

theorem clean_preserves_non_task_witness :
    "master" ∈ cleanRepo.branches
    ∧ isTaskBranch issueCfg "master" = false
    ∧ "master" ∈
        (clean issueCfg cleanRepo (fun _ _ => true)
          "origin/master" false).state.branches :=
  ⟨by decide, by decide,
   clean_preserves_non_task issueCfg cleanRepo (fun _ _ => true)
     "origin/master" false "master" (by decide) (by decide)⟩

/-- Claim C4: starting the same task twice from a state without that
branch creates the branch once (it appears exactly once afterwards and is
current); the first call reports "Creating new task", the second reports
"Switching to existing task". -/
theorem start_twice (st : RepoState) (t : String) (h : t ∉ st.branches) :
    (start st t).2 = "Creating new task"
    ∧ (start (start st t).1 t).2 = "Switching to existing task"
    ∧ (start (start st t).1 t).1.current = t
    ∧ (start (start st t).1 t).1.branches = t :: st.branches
    ∧ (start (start st t).1 t).1.branches.count t = 1 := by
  have hc : st.branches.contains t = false := by simpa using h
  have h1 : start st t =
      ({ branches := t :: st.branches, current := t },
       "Creating new task") := by
    simp [start, hc, h]
  have hc2 : (t :: st.branches).contains t = true := by simp
  have h2 : start { branches := t :: st.branches, current := t } t =
      ({ branches := t :: st.branches, current := t },
       "Switching to existing task") := by
    simp [start, hc2]
  refine ⟨by rw [h1], by rw [h1, h2], by rw [h1, h2], by rw [h1, h2], ?_⟩
  rw [h1, h2]
  show (t :: st.branches).count t = 1
  rw [List.count_cons_self, List.count_eq_zero.mpr h]

theorem start_twice_witness :
    "issue-1" ∉ RepoState.branches ⟨["master"], "master"⟩
    ∧ ((start ⟨["master"], "master"⟩ "issue-1").2 = "Creating new task"
      ∧ (start (start ⟨["master"], "master"⟩ "issue-1").1 "issue-1").2 =
          "Switching to existing task"
      ∧ (start (start ⟨["master"], "master"⟩ "issue-1").1
          "issue-1").1.current = "issue-1"
      ∧ (start (start ⟨["master"], "master"⟩ "issue-1").1
          "issue-1").1.branches = "issue-1" :: ["master"]
      ∧ (start (start ⟨["master"], "master"⟩ "issue-1").1
          "issue-1").1.branches.count "issue-1" = 1) :=
  ⟨by decide, start_twice ⟨["master"], "master"⟩ "issue-1" (by decide)⟩

/-- Claim C5: a task identifier matching patterns of several configured
Systems resolves to the first System in config-document order, and within
a single System any one matching pattern is sufficient. -/
theorem resolve_first_match (pre : List System) (s : System)
    (post : List System) (t : String)
    (hpre : ∀ s2 ∈ pre, systemMatches s2 t = false)
    (hs : systemMatches s t = true) :
    resolve (pre ++ s :: post) t = some s
    ∧ ∀ (sys : System) (p : String → Bool),
        p ∈ sys.patterns → p t = true → systemMatches sys t = true := by
  constructor
  · exact find?_first (fun s2 => systemMatches s2 t) pre s post hpre hs
  · intro sys p hp hpt
    unfold systemMatches
    rw [List.any_eq_true]
    exact ⟨p, hp, hpt⟩

theorem resolve_first_match_witness :
    (∀ s2 ∈ [issueSystem], systemMatches s2 "generic-1" = false)
    ∧ systemMatches genSystem "generic-1" = true
    ∧ (resolve ([issueSystem] ++ genSystem :: [statusSystem])
        "generic-1" = some genSystem
      ∧ ∀ (sys : System) (p : String → Bool),
          p ∈ sys.patterns → p "generic-1" = true →
          systemMatches sys "generic-1" = true) :=
  ⟨by decide, by decide,
   resolve_first_match [issueSystem] genSystem [statusSystem] "generic-1"
     (by decide) (by decide)⟩

/-- Claim C2: running the Commit Message Hook twice on the same buffer
with the same resolved Task yields the same final buffer as running it
once, and a buffer already containing the rendered metadata line is left
unchanged.  The hypothesis says the rendered line holds no newline, which
every rendering of newline-free Task fields satisfies. -/
theorem hook_idempotent (cfg : List System)
    (adapter : String → Option Task) (branch buffer : String)
    (hnl : '\n' ∉ (hookLine cfg adapter branch).data) :
    (prepareCommitMsg cfg adapter branch
        (prepareCommitMsg cfg adapter branch buffer).1).1 =
      (prepareCommitMsg cfg adapter branch buffer).1
    ∧ (containsLine buffer (hookLine cfg adapter branch) = true →
        (prepareCommitMsg cfg adapter branch buffer).1 = buffer) := by
  cases hres : resolve cfg branch with
  | none =>
    exact ⟨by simp [prepareCommitMsg, hres],
           fun _ => by simp [prepareCommitMsg, hres]⟩
  | some sys =>
    have hline : hookLine cfg adapter branch =
        annLine sys branch (adapter branch) := by
      simp [hookLine, hres]
    rw [hline] at hnl
    by_cases hc :
        containsLine buffer (annLine sys branch (adapter branch)) = true
    · exact ⟨by simp [prepareCommitMsg, hres, hc],
             fun _ => by simp [prepareCommitMsg, hres, hc]⟩
    · have hc' :
          containsLine buffer (annLine sys branch (adapter branch)) =
            false := Bool.eq_false_iff.mpr hc
      constructor
      · have hfirst : (prepareCommitMsg cfg adapter branch buffer).1 =
            "\n\n" ++ annLine sys branch (adapter branch) ++ "\n\n" ++
              buffer := by
          simp [prepareCommitMsg, hres, hc']
        rw [hfirst]
        have h2 :=
          containsLine_insert (annLine sys branch (adapter branch))
            buffer hnl
        simp [prepareCommitMsg, hres, h2]
      · intro hct
        rw [hline] at hct
        exact absurd hct hc

/-- The adapter used in the hook witnesses: the fake task manager's reply
with id 1 and title "First issue". -/
def wAdapter : String → Option Task :=
  fun _ => some { id := "1", title := some "First issue", status := none }

theorem hook_idempotent_witness :
    '\n' ∉ (hookLine genCfg wAdapter "generic-1").data
    ∧ ((prepareCommitMsg genCfg wAdapter "generic-1"
          (prepareCommitMsg genCfg wAdapter "generic-1"
            "Just a commit message\n").1).1 =
        (prepareCommitMsg genCfg wAdapter "generic-1"
          "Just a commit message\n").1
      ∧ (containsLine "Just a commit message\n"
            (hookLine genCfg wAdapter "generic-1") = true →
          (prepareCommitMsg genCfg wAdapter "generic-1"
            "Just a commit message\n").1 = "Just a commit message\n")) :=
  ⟨by decide,
   hook_idempotent genCfg wAdapter "generic-1" "Just a commit message\n"
     (by decide)⟩

/-- Claim C7: the Commit Message Hook always exits with code 0; an
unresolved branch leaves the buffer byte-for-byte untouched, and an
adapter failure degrades to the bare-identifier (empty-field) metadata
line instead of rejecting the commit. -/
theorem hook_exit_zero (cfg : List System)
    (adapter : String → Option Task) (branch buffer : String) :
    (prepareCommitMsg cfg adapter branch buffer).2 = 0
    ∧ (resolve cfg branch = none →
        (prepareCommitMsg cfg adapter branch buffer).1 = buffer)
    ∧ (∀ sys, resolve cfg branch = some sys → adapter branch = none →
        (prepareCommitMsg cfg adapter branch buffer).1 =
          if containsLine buffer branch = true then buffer
          else "\n\n" ++ branch ++ "\n\n" ++ buffer) := by
  refine ⟨?_, ?_, ?_⟩
  · cases hres : resolve cfg branch with
    | none => simp [prepareCommitMsg, hres]
    | some sys =>
      by_cases hc :
          containsLine buffer (annLine sys branch (adapter branch)) = true
      · simp [prepareCommitMsg, hres, hc]
      · simp [prepareCommitMsg, hres, Bool.eq_false_iff.mpr hc]
  · intro hres
    simp [prepareCommitMsg, hres]
  · intro sys hres had
    simp only [prepareCommitMsg, hres, had, annLine]
    split <;> rfl

theorem hook_exit_zero_witness :
    resolve genCfg "master" = none
    ∧ resolve genCfg "generic-1" = some genSystem
    ∧ (prepareCommitMsg genCfg (fun _ => none) "master"
        "Just a commit message\n").2 = 0
    ∧ (prepareCommitMsg genCfg (fun _ => none) "master"
        "Just a commit message\n").1 = "Just a commit message\n"
    ∧ (prepareCommitMsg genCfg (fun _ => none) "generic-1"
        "Just a commit message\n").1 =
      (if containsLine "Just a commit message\n" "generic-1" = true
        then "Just a commit message\n"
        else "\n\n" ++ "generic-1" ++ "\n\n" ++ "Just a commit message\n") :=
  ⟨rfl, rfl,
   (hook_exit_zero genCfg (fun _ => none) "master"
     "Just a commit message\n").1,
   (hook_exit_zero genCfg (fun _ => none) "master"
     "Just a commit message\n").2.1 rfl,
   (hook_exit_zero genCfg (fun _ => none) "generic-1"
     "Just a commit message\n").2.2 genSystem rfl rfl⟩

/-- Claim C6: status prints one line per task branch in the default
rendering with absent fields as empty strings (never "None" or a crash),
matching the test's exact bytes, and prints "No tasks started" when no
task branch exists. -/
theorem status_renders :
    status_output statusCfg (fun _ => none) ⟨["master"], "master"⟩ =
      "No tasks started\n"
    ∧ status_output statusCfg (fun _ => none)
        ⟨["generic-1", "master"], "generic-1"⟩ = "generic-1 (): \n"
    ∧ status_output statusCfg
        (fun _ => some { id := "1", title := some "First issue",
                          status := some "New" })
        ⟨["generic-1", "master"], "generic-1"⟩ =
      "generic-1 (New): First issue\n"
    ∧ (∀ b i, renderStatusLine b { id := i, title := none, status := none }
        = b ++ " (): ")
    ∧ (∀ cfg adapter st, taskBranches cfg st = [] →
        status_output cfg adapter st = "No tasks started\n") := by
  refine ⟨by decide, by decide, by decide, ?_, ?_⟩
  · intro b i
    show b ++ " (" ++ "" ++ "): " ++ "" = b ++ " (): "
    rw [String.append_empty, String.append_empty, String.append_assoc]
    rw [show (" (" : String) ++ "): " = " (): " from rfl]
  · intro cfg adapter st hempty
    simp [status_output, hempty]

theorem status_renders_witness :
    taskBranches statusCfg ⟨[], "master"⟩ = []
    ∧ status_output statusCfg (fun _ => none) ⟨[], "master"⟩ =
        "No tasks started\n" :=
  ⟨by decide,
   status_renders.2.2.2.2 statusCfg (fun _ => none) ⟨[], "master"⟩
     (by decide)⟩

/-- Claim C9: list prints the task branches one per line in
lexicographically sorted order; with no task branches its output is
empty, and after starting issue-1 and issue-2 in either order it is
exactly "issue-1\nissue-2\n". -/
theorem list_sorted_output :
    (∀ cfg st,
      List.Sorted (fun a b => strLe a b = true) (taskBranches cfg st)
      ∧ (taskBranches cfg st).Perm
          (st.branches.filter (fun b => isTaskBranch cfg b)))
    ∧ list_output issueCfg ⟨[], "master"⟩ = ""
    ∧ list_output issueCfg
        (start (start ⟨["master"], "master"⟩ "issue-1").1 "issue-2").1 =
      "issue-1\nissue-2\n"
    ∧ list_output issueCfg
        (start (start ⟨["master"], "master"⟩ "issue-2").1 "issue-1").1 =
      "issue-1\nissue-2\n" := by
  refine ⟨?_, by decide, by decide, by decide⟩
  intro cfg st
  exact ⟨List.sorted_insertionSort _ _, List.perm_insertionSort _ _⟩

/-- Claim C8, counterexample: on the test's own input the hook prepends
two blank lines, the metadata line and one blank line (as the repository
test asserts), not the spec-literal single blank line before the line. -/
theorem hook_insert_cex :
    (prepareCommitMsg genCfg (fun _ => none) "generic-1"
      "Just a commit message\n").1 =
      "\n\ngeneric-1\n\nJust a commit message\n"
    ∧ (prepareCommitMsg genCfg (fun _ => none) "generic-1"
        "Just a commit message\n").1 ≠
      specParagraphInsert "generic-1" "Just a commit message\n" := by
  constructor
  · decide
  · decide

/-- Claim C8, amended: when the metadata line is absent, the hook
prepends two blank lines, the line, and one blank line — the bytes
"\n\n" ++ line ++ "\n\n" — in front of the buffer, preserving every byte
of the original content verbatim afterwards. -/
theorem hook_insert_bytes (cfg : List System)
    (adapter : String → Option Task) (branch buffer : String)
    (sys : System) (hres : resolve cfg branch = some sys)
    (hnc : containsLine buffer (annLine sys branch (adapter branch)) =
      false) :
    (prepareCommitMsg cfg adapter branch buffer).1 =
      "\n\n" ++ annLine sys branch (adapter branch) ++ "\n\n" ++ buffer := by
  simp [prepareCommitMsg, hres, hnc]

theorem hook_insert_bytes_witness :
    resolve genCfg "generic-1" = some genSystem
    ∧ containsLine "Just a commit message\n"
        (annLine genSystem "generic-1" none) = false
    ∧ (prepareCommitMsg genCfg (fun _ => none) "generic-1"
        "Just a commit message\n").1 =
      "\n\n" ++ annLine genSystem "generic-1" none ++ "\n\n" ++
        "Just a commit message\n" :=
  ⟨rfl, by decide,
   hook_insert_bytes genCfg (fun _ => none) "generic-1"
     "Just a commit message\n" genSystem rfl (by decide)⟩

end GitTasks
